import Mathlib

/-!
Shallow embedding of the audio segmentation-and-shipping pipeline of this
repository, translated from `src/api/engine.py`, `src/api/core.py` and the
`/api/fly` endpoint of `src/api/main.py`.

Modelling conventions:
* Python floats are embedded as exact rationals (`ℚ`); machine floating
  point rounding is not modelled.
* A fallible Python code path (an expression that can raise) is embedded as
  an `Option`-valued function, `none` standing for the raised exception.
* The opaque byte containers produced by the `av` library are represented
  by the list of muxed packets they hold; their byte size is supplied as an
  abstract measurement function where the source reads
  `output_mem.getbuffer().nbytes`.
* Concurrency is linearised: the conveyor queue and the log queue are each
  modelled as the list of items put on them, in program order of the
  component that produces them.
-/

namespace PythonFastx

/-- A demuxed `av` packet as seen by `run_packager` / `create_package`:
the decode timestamp may be absent (Python `None`), the presentation
timestamp is an integer. -/
structure Packet where
  dts : Option Int
  pts : Int
  deriving DecidableEq, Repr

/-- A packet after `create_package` rebased it and muxed it into the
output container (`pkt.dts -= base_dts; pkt.pts -= base_pts`). -/
structure MuxedPkt where
  dts : Int
  pts : Int
  deriving DecidableEq, Repr

/-- A JSON value as used in event payload maps: string, integer or
numeric (float) entries. -/
inductive JVal where
  | s (v : String)
  | i (v : Int)
  | q (v : ℚ)
  deriving DecidableEq, Repr

/-- An event handed to `log_dispatch` in `src/api/core.py`: a kind
(`status` / `asset` / `error` / `keepalive`), an optional payload map
(insertion-ordered, as a Python dict) and an optional text message. -/
structure Event where
  kind : String
  payload : Option (List (String × JVal))
  text : Option String
  deriving DecidableEq, Repr

/-- One line put on the output queue by `log_dispatch`: either the verbose
`"[KIND] text"` rendering (debug mode only; the kind is stored unrendered)
or the serialised JSON object `{"type":kind, "timestamp":…, "payload":…}`
(the timestamp, a wall-clock read, is not modelled). -/
inductive Line where
  | text (kind : String) (msg : String)
  | json (kind : String) (payload : List (String × JVal))
  deriving DecidableEq, Repr

/-- Key lookup in a payload map, Python `"message" not in packet["payload"]`
and `body.get(k)`. -/
def plookup (p : List (String × JVal)) (k : String) : Option JVal :=
  (p.find? (fun kv => kv.1 == k)).map (fun kv => kv.2)

/-- `log_dispatch` (`src/api/core.py` lines 158-170) as a pure function
from one dispatched event to the list of lines it puts on the queue.
Python truthiness of `text` is non-emptiness; truthiness of `payload` is
`payload is not None and payload != {}`. -/
def log_dispatch (mode : String) (event_type : String)
    (payload : Option (List (String × JVal))) (text : Option String) :
    List Line :=
  let payload0 : List (String × JVal) := (payload.getD [])
  let text_truthy : Bool := match text with
    | some t => t != ""
    | none => false
  let payload1 : List (String × JVal) :=
    if text_truthy && (plookup payload0 "message").isNone then
      payload0 ++ [("message", JVal.s (text.getD ""))]
    else payload0
  let is_terminal_kind : Bool :=
    event_type == "asset" || event_type == "error" || event_type == "keepalive"
  if mode == "data" then
    if is_terminal_kind then [Line.json event_type payload1] else []
  else
    (if text_truthy then [Line.text event_type (text.getD "")] else []) ++
    (if is_terminal_kind || (match payload with
        | some l => l != []
        | none => false) then [Line.json event_type payload1] else [])

/-- Substring test used for Python `needle in haystack` (needles here are
always non-empty literals). -/
def contains_sub (hay needle : String) : Bool :=
  2 ≤ (hay.splitOn needle).length

/-- The classification loop of `miner_log_monitor` (`src/api/engine.py`
lines 24-39), for non-`data` sessions: each stderr line arrives with a
wall-clock timestamp, and `[download]` progress lines are rate limited to
one per second via `last_progress_time`. Returns the events dispatched. -/
def miner_loop : List (ℚ × String) → ℚ → List Event
  | [], _ => []
  | (now, raw) :: rest, last_progress_time =>
    let text := raw.trim
    if text == "" then miner_loop rest last_progress_time
    else if contains_sub text "[download]" then
      if 1 < now - last_progress_time then
        ⟨"status", none, some ((text.replace "[download]" "⛏️").trim)⟩ ::
          miner_loop rest now
      else miner_loop rest last_progress_time
    else if contains_sub text.toLower "error" then
      ⟨"error", none, some ("[MINER ERROR] " ++ text)⟩ ::
        miner_loop rest last_progress_time
    else
      ⟨"status", none, some ("[MINER] " ++ text)⟩ ::
        miner_loop rest last_progress_time

/-- `miner_log_monitor` (`src/api/engine.py` lines 20-39): in `data` mode
the stderr pipe is drained without dispatching anything; otherwise each
classified event is rendered through `log_dispatch`. -/
def miner_log_monitor (mode : String) (lines : List (ℚ × String)) :
    List Line :=
  if mode == "data" then []
  else (miner_loop lines 0).flatMap
    (fun e => log_dispatch mode e.kind e.payload e.text)

/-- `Config.BUFFER_TAIL` from `src/api/core.py` (600 s = 10 minutes). -/
def BUFFER_TAIL : Int := 600

/-- `CODEC_MAP` from `src/api/core.py`. -/
def CODEC_MAP : List (String × String) :=
  [("opus", "webm"), ("aac", "mp4"), ("mp3", "mp3"), ("vorbis", "ogg")]

/-- `CODEC_MAP.get(codec, "matroska")`. -/
def codec_fmt (codec : String) : String :=
  ((CODEC_MAP.find? (fun kv => kv.1 == codec)).map (fun kv => kv.2)).getD "matroska"

/-- The "DUAL MODE SPLIT LOGIC" of `run_packager` (`src/api/engine.py`
lines 88-101).  Returns `(target_split, threshold, balanced)` where
`balanced` records whether the balanced-split branch was taken, or `none`
for the `ZeroDivisionError` the Python code raises when
`total_duration > 0` and `split_duration * 60 == 0` (this computation runs
before the `try` block of `run_packager`). -/
def dual_mode_split (total_duration : ℚ) (split_duration : Int) :
    Option (ℚ × ℚ × Bool) :=
  let base_split_seconds : Int := split_duration * 60
  let target_split : ℚ := (base_split_seconds : ℚ)
  let threshold : ℚ := (base_split_seconds : ℚ) + (BUFFER_TAIL : ℚ)
  if 0 < total_duration then
    if base_split_seconds = 0 then none
    else
      let num_parts : Int := ⌈total_duration / (base_split_seconds : ℚ)⌉
      if 0 < num_parts then
        some (total_duration / (num_parts : ℚ),
              total_duration / (num_parts : ℚ) + 30, true)
      else some (target_split, threshold, false)
  else some (target_split, threshold, false)

/-- The rebasing performed by `create_package` on one muxed packet:
`pkt.dts -= base_dts; pkt.pts -= base_pts`.  (`dts.getD 0` is only ever
read on packets whose dts is present; a `None` dts aborts the mux loop
before `rebase` is applied to it.) -/
def rebase (base_dts base_pts : Int) (p : Packet) : MuxedPkt :=
  ⟨p.dts.getD 0 - base_dts, p.pts - base_pts⟩

/-- The guard `rel_time < max_dur` of `create_package`, where
`rel_time = float(pkt.dts - base_dts) * input_stream.time_base` and
`max_dur` is `float("inf")` (`none`) for the final chunk. -/
def keep_time (time_base : ℚ) (base_dts : Int) (max_dur : Option ℚ)
    (d : Int) : Bool :=
  match max_dur with
  | none => true
  | some m => decide (((d - base_dts : Int) : ℚ) * time_base < m)

/-- The `for i, pkt in enumerate(packets)` loop of `create_package`
(`src/api/engine.py` lines 51-59): `i` is the enumeration index of the
head of the remaining list, `cutoff_idx` the running cutoff (initially 0,
set to `i` after each muxed packet); the loop breaks at the first packet
whose relative time reaches `max_dur`.  `none` models the `TypeError`
Python raises when a packet with `dts = None` is examined. -/
def mux_loop (time_base : ℚ) (base_dts base_pts : Int) (max_dur : Option ℚ) :
    List Packet → Nat → Nat → Option (List MuxedPkt × Nat)
  | [], _, cutoff_idx => some ([], cutoff_idx)
  | pkt :: rest, i, cutoff_idx =>
    match pkt.dts with
    | none => none
    | some d =>
      if keep_time time_base base_dts max_dur d then
        match mux_loop time_base base_dts base_pts max_dur rest (i + 1) i with
        | none => none
        | some (ms, c) => some (rebase base_dts base_pts pkt :: ms, c)
      else
        some ([], cutoff_idx)

/-- `create_package` (`src/api/engine.py` lines 41-62): rebases and muxes
the prefix of `packets` below the duration cap into a fresh container and
returns the muxed packets together with `cutoff_idx`.  `none` models the
Python exceptions (`packets[0]` on an empty buffer raises `IndexError`; a
`None` dts raises `TypeError`).  The byte-level container, its format
string and its size measurement are not modelled here (see `Cargo`). -/
def create_package (packets : List Packet) (time_base : ℚ)
    (max_dur : Option ℚ) : Option (List MuxedPkt × Nat) :=
  match packets with
  | [] => none
  | p0 :: _ =>
    match p0.dts with
    | none => none
    | some base_dts => mux_loop time_base base_dts p0.pts max_dur packets 0 0

/-- `Cargo` from `src/api/core.py`: one sealed chunk.  The in-memory byte
buffer is represented by the list of packets muxed into it; `size_mb` is
the megabyte measurement the source derives from
`output_mem.getbuffer().nbytes` (supplied to the model as an abstract
measurement function, see `run_packager`). -/
structure Cargo where
  buffer : List MuxedPkt
  index : Nat
  mime_type : String
  size_mb : ℚ
  deriving DecidableEq, Repr

/-- One item put on the conveyor queue: a `Cargo`, or the terminal `None`
sentinel. -/
inductive QueueItem where
  | cargo (c : Cargo)
  | sentinel
  deriving DecidableEq, Repr

/-- The `for packet in in_container.demux(in_stream)` loop of
`run_packager` (`src/api/engine.py` lines 121-141) plus the final-box
seal (lines 137-141), returning the conveyor puts it performs, in order.
`demux_error` models an exception raised by the demux iterator after the
listed packets (an earlier mid-stream failure is the same run on the
truncated packet list); it skips the final-box seal, exactly as the
`except` handler does.  A `none` from `create_package`, or a `None` dts at
the head of the buffer, likewise aborts the loop (caught by the same
handler); in every such case the puts already performed stand. -/
def packager_loop (time_base threshold target_split : ℚ) (mime : String)
    (container_size : List MuxedPkt → ℚ) :
    List Packet → List Packet → Nat → Bool → List QueueItem
  | [], buffer, box_id, demux_error =>
    if demux_error then []
    else
      match buffer with
      | [] => []
      | _ :: _ =>
        match create_package buffer time_base none with
        | none => []
        | some (ms, _) =>
          [QueueItem.cargo ⟨ms, box_id, mime, container_size ms⟩]
  | packet :: rest, buffer, box_id, demux_error =>
    match packet.dts with
    | none =>
      packager_loop time_base threshold target_split mime container_size
        rest buffer box_id demux_error
    | some d =>
      let buffer' := buffer ++ [packet]
      match (buffer.headD packet).dts with
      | none => []
      | some d0 =>
        if threshold ≤ ((d - d0 : Int) : ℚ) * time_base then
          match create_package buffer' time_base (some target_split) with
          | none => []
          | some (ms, cutoff) =>
            QueueItem.cargo ⟨ms, box_id, mime, container_size ms⟩ ::
              packager_loop time_base threshold target_split mime
                container_size rest (buffer'.drop (cutoff + 1)) (box_id + 1)
                demux_error
        else
          packager_loop time_base threshold target_split mime container_size
            rest buffer' box_id demux_error

/-- The observable result of one `run_packager` call: the conveyor-queue
puts, the events it dispatched to the log queue (the `miner_log_monitor`
thread is modelled separately), and whether an exception escaped the
function. -/
structure PackagerRun where
  conveyor : List QueueItem
  events : List Event
  raised : Bool
  deriving Repr

/-- `run_packager` (`src/api/engine.py` lines 64-155).  Parameters of the
model: `time_base` and `codec` stand for the demuxed stream's properties,
`container_size` for the byte-size measurement of a muxed container,
`startup_ok` is false when the child process died before producing output
or the byte stream had no audio track (the `raise` on line 113 or a
failing `av.open` / `streams.audio[0]`, all inside the `try`), `stream` is
the list of demuxed packets and `demux_error` an exception ending the
demux iteration.  The threshold computation (lines 88-101) runs *before*
the `try` block: when it raises (`dual_mode_split = none`), nothing is
ever put on the conveyor and the exception escapes (`raised = true`) —
the `finally` sentinel put on line 155 is never reached.  Event texts are
abbreviated; only their kinds matter to the protocol. -/
def run_packager (total_duration : ℚ) (split_duration : Int)
    (time_base : ℚ) (codec : String) (container_size : List MuxedPkt → ℚ)
    (startup_ok : Bool) (stream : List Packet) (demux_error : Bool) :
    PackagerRun :=
  match dual_mode_split total_duration split_duration with
  | none => { conveyor := [], events := [], raised := true }
  | some (target_split, threshold, balanced) =>
    let start_events : List Event :=
      (if balanced then [⟨"status", none, some "[PACKAGER] ⚖️ Balanced Split"⟩]
       else []) ++ [⟨"status", none, some "[PACKAGER] factory start"⟩]
    if startup_ok then
      let mime := "audio/" ++ codec_fmt codec
      let puts := packager_loop time_base threshold target_split mime
        container_size stream [] 0 demux_error
      { conveyor := puts ++ [QueueItem.sentinel],
        events := start_events ++
          [⟨"status", none, some "[PACKAGER] ✅ Connected"⟩] ++
          (if demux_error then [⟨"error", none, some "[PACKAGER ERROR] 💥"⟩]
           else []),
        raised := false }
    else
      { conveyor := [QueueItem.sentinel],
        events := start_events ++
          [⟨"error", none, some "[PACKAGER ERROR] 💥"⟩],
        raised := false }

/-- An HTTP response as observed by `ship_cargo`: the status code, the
text body (read on the error path) and the JSON body (read on the success
path, as a string-valued map). -/
structure HttpResp where
  status : Nat
  body_text : String
  body_json : List (String × String)
  deriving DecidableEq, Repr

/-- The outcome of one `session.post(...)` in `ship_cargo`: a response, or
a transport/parse exception anywhere inside the `try` block (connection
failure, `resp.text()` / `resp.json()` failure, ...). -/
inductive Transport where
  | resp (r : HttpResp)
  | exc (msg : String)
  deriving DecidableEq, Repr

/-- `body.get(k)` on the JSON body. -/
def json_get (body : List (String × String)) (k : String) : Option String :=
  (body.find? (fun kv => kv.1 == k)).map (fun kv => kv.2)

/-- Python `x or y` over optional strings (`None` and `""` are falsy), as
used in the `asset_id or asset or id or 'unknown'` chain. -/
def or_str (o : Option String) (alt : String) : String :=
  match o with
  | some s => if s == "" then alt else s
  | none => alt

/-- `ship_cargo` (`src/api/engine.py` lines 183-204) as a function of the
transport outcome: returns the events it dispatches and whether the
chunk's byte buffer was closed (the `finally` on line 204). -/
def ship_cargo (provider : String) (cargo : Cargo) (t : Transport) :
    List Event × Bool :=
  match t with
  | Transport.exc msg =>
    ([⟨"error", some [("details", JVal.s msg)],
        some ("[SHIPPER ERROR] " ++ msg)⟩], true)
  | Transport.resp r =>
    if 400 ≤ r.status then
      ([⟨"error",
          some [("error_code", JVal.i r.status),
                ("details", JVal.s r.body_text),
                ("box", JVal.i cargo.index)],
          some "[SHIPPER] ❌ Upload Failed"⟩], true)
    else
      let asset_url : String :=
        if provider == "assemblyai" then
          (json_get r.body_json "upload_url").getD ""
        else
          "https://manage.deepgram.com/storage/assets/" ++
            or_str (json_get r.body_json "asset_id")
              (or_str (json_get r.body_json "asset")
                (or_str (json_get r.body_json "id") "unknown"))
      ([⟨"asset",
          some [("index", JVal.i cargo.index),
                ("asset", JVal.s asset_url),
                ("provider", JVal.s provider),
                ("size_mb", JVal.q cargo.size_mb)],
          some "[SHIPPER] ✅ Delivered"⟩], true)

/-- The dequeue loop of `run_shipper` (`src/api/engine.py` lines 210-216):
the i-th dequeued cargo is shipped with transport outcome `uploads i`.
Upload tasks run concurrently in the source with no completion-order
guarantee; the model linearises their events in dequeue order, which is
faithful for per-chunk event counts. -/
def shipper_loop (provider : String) (uploads : Nat → Transport) :
    List Cargo → Nat → List Event
  | [], _ => []
  | c :: rest, i =>
    ⟨"status", none, some "[SHIPPER] 🚚 Picked up"⟩ ::
      ((ship_cargo provider c (uploads i)).1 ++
        shipper_loop provider uploads rest (i + 1))

/-- `run_shipper` (`src/api/engine.py` lines 206-219): the events the
Shipper dispatches for a conveyor carrying `cargos` then the sentinel.
The timing-dependent "Waiting for N active shipments" status line is
omitted. -/
def run_shipper (provider : String) (cargos : List Cargo)
    (uploads : Nat → Transport) : List Event :=
  ⟨"status", none, some "[SHIPPER] 🚚 Logistics Partner"⟩ ::
    shipper_loop provider uploads cargos 0

/-- One item put on the per-job log queue: a protocol line, or the closing
`None` put by `run_fly_process` (line 254). -/
inductive LogItem where
  | line (l : Line)
  | done
  deriving DecidableEq, Repr

/-- Rendering of one dispatched event into log-queue items, i.e. a
`log_dispatch(log_queue, ctx, …)` call. -/
def render_event (mode : String) (e : Event) : List LogItem :=
  (log_dispatch mode e.kind e.payload e.text).map LogItem.line

/-- The observable result of one `run_fly_process` call: the items put on
the log queue (heartbeat keepalives, which are purely timer-driven, are
not modelled), whether the per-job temporary cookie/credentials file
exists after the call, and whether an exception escaped. -/
structure FlyRun where
  out : List LogItem
  cookie_file_exists : Bool
  raised : Bool
  deriving Repr

/-- `run_fly_process` (`src/api/engine.py` lines 226-254), for a normal
job (`only_list_formats = False`).  `write_ok` is whether the cookie-file
write succeeded (its failure is swallowed by `except: pass`).  The
function has no `try`/`finally` of its own: if `run_packager` raises
(threshold computation failing before its protected region), the `await
loop.run_in_executor(...)` re-raises inside `run_fly_process`, so the
cookie file is never deleted and the closing `None` is never put.
Otherwise the Shipper drains the conveyor, `hb_task` is cancelled, the
cookie file is removed if present, and `None` closes the stream.
Log-queue items from the worker thread and the async side are linearised
in component order. -/
def run_fly_process (cookies : String) (write_ok : Bool)
    (mode provider : String) (total_duration : ℚ) (split_duration : Int)
    (time_base : ℚ) (codec : String) (container_size : List MuxedPkt → ℚ)
    (startup_ok : Bool) (stream : List Packet) (demux_error : Bool)
    (uploads : Nat → Transport) : FlyRun :=
  let cookie0 : Bool := (cookies != "") && write_ok
  let render := render_event mode
  let start_items :=
    render ⟨"status", none, some "--- 🏭 LOGISTICS SYSTEM STARTED ---"⟩
  let pr := run_packager total_duration split_duration time_base codec
    container_size startup_ok stream demux_error
  if pr.raised then
    { out := start_items, cookie_file_exists := cookie0, raised := true }
  else
    let cargos := pr.conveyor.filterMap (fun q =>
      match q with
      | QueueItem.cargo c => some c
      | QueueItem.sentinel => none)
    let ship_items := (run_shipper provider cargos uploads).flatMap render
    { out := start_items ++ pr.events.flatMap render ++ ship_items ++
        render ⟨"status", none, some "--- ✅ ALL SHIPMENTS COMPLETE ---"⟩ ++
        [LogItem.done],
      cookie_file_exists := false,
      raised := false }

/-- The request body accepted by `POST /api/fly` (`FlyRequest` in
`src/api/main.py` lines 166-177).  It has no `total_duration`,
`split_duration`, `only_list_formats` or `no_playlist` field; unknown
JSON keys are ignored by the pydantic model. -/
structure FlyRequest where
  url : String
  cookies : String
  chunk_size : String
  limit_rate : String
  wait_time : String
  player_clients : String
  po_token : String
  provider : String
  mode : String
  deepgram_key : Option String
  assemblyai_key : Option String
  deriving DecidableEq, Repr

/-- The arguments with which the endpoint handler `fly_process`
(`src/api/main.py` lines 180-196) invokes the fly pipeline, restricted to
the fields the Segmenter's split logic reads.  Parameters the call site
does not pass keep the defaults of the `run_fly_process` /
`run_packager` signatures in `src/api/engine.py`
(`total_duration: float = 0.0`, `split_duration: int = 30`). -/
structure FlyCallArgs where
  url : String
  provider : String
  mode : String
  total_duration : ℚ
  split_duration : Int
  deriving DecidableEq, Repr

/-- The argument construction performed by the `POST /api/fly` handler:
every field it passes comes from the request; `total_duration` and
`split_duration` are never passed and keep their defaults. -/
def fly_endpoint_args (r : FlyRequest) : FlyCallArgs :=
  { url := r.url, provider := r.provider, mode := r.mode,
    total_duration := 0, split_duration := 30 }

/-! Observation helpers used by the theorem statements. -/

/-- The chunk index of a conveyor item, when it is a `Cargo`. -/
def cargo_index? : QueueItem → Option Nat
  | QueueItem.cargo c => some c.index
  | QueueItem.sentinel => none

/-- The event kind a line reports (the `type` field of the JSON object,
or the bracketed kind of a verbose text line). -/
def line_kind : Line → String
  | Line.text k _ => k
  | Line.json k _ => k

/-- Whether a line is a serialised JSON object (as opposed to a verbose
text rendering). -/
def is_json_line : Line → Bool
  | Line.text _ _ => false
  | Line.json _ _ => true

/-- The payload map of a JSON line (`[]` for text lines). -/
def json_payload : Line → List (String × JVal)
  | Line.text _ _ => []
  | Line.json _ p => p

/-- Number of events of a given kind in a dispatched event list. -/
def event_count (k : String) (es : List Event) : Nat :=
  (es.filter (fun e => e.kind == k)).length

/-- Whether an upload outcome is a failure in the sense of `ship_cargo`:
a transport exception, or an HTTP status of at least 400. -/
def is_failure : Transport → Bool
  | Transport.exc _ => true
  | Transport.resp r => decide (400 ≤ r.status)

/-- Number of failing uploads among positions `i, i+1, …, i+n-1`. -/
def failures_in (u : Nat → Transport) (i n : Nat) : Nat :=
  ((List.range' i n).filter (fun j => is_failure (u j))).length

/-! Lemmas about the mux loop of `create_package`. -/

/-- The packets muxed by the loop are the rebased images of a prefix of
the packet list. -/
lemma mux_loop_prefix (time_base : ℚ) (base_dts base_pts : Int)
    (max_dur : Option ℚ) (l : List Packet) :
    ∀ (i cutoff : Nat) (ms : List MuxedPkt) (c : Nat),
      mux_loop time_base base_dts base_pts max_dur l i cutoff = some (ms, c) →
      ms = (l.take ms.length).map (rebase base_dts base_pts) := by
  induction l with
  | nil =>
    intro i cutoff ms c h
    simp only [mux_loop, Option.some.injEq, Prod.mk.injEq] at h
    obtain ⟨hms, hc⟩ := h
    subst hms
    simp
  | cons pkt rest ih =>
    intro i cutoff ms c h
    cases hd : pkt.dts with
    | none => simp [mux_loop, hd] at h
    | some d =>
      simp only [mux_loop, hd] at h
      by_cases hk : keep_time time_base base_dts max_dur d = true
      · rw [if_pos hk] at h
        cases hrec : mux_loop time_base base_dts base_pts max_dur rest
            (i + 1) i with
        | none => rw [hrec] at h; simp at h
        | some p =>
          obtain ⟨ms', c'⟩ := p
          rw [hrec] at h
          simp only [Option.some.injEq, Prod.mk.injEq] at h
          obtain ⟨hms, hc⟩ := h
          subst hms
          have hms' := ih (i + 1) i ms' c' hrec
          simp only [List.length_cons, List.take_succ_cons, List.map_cons]
          exact congrArg (fun t => rebase base_dts base_pts pkt :: t) hms'
      · rw [if_neg hk] at h
        simp only [Option.some.injEq, Prod.mk.injEq] at h
        obtain ⟨hms, hc⟩ := h
        subst hms
        simp

/-- Every muxed packet passed the duration guard (with a present dts),
and the packet at which the loop stopped - when one exists - failed it. -/
lemma mux_loop_keeps (time_base : ℚ) (base_dts base_pts : Int)
    (max_dur : Option ℚ) (l : List Packet) :
    ∀ (i cutoff : Nat) (ms : List MuxedPkt) (c : Nat),
      mux_loop time_base base_dts base_pts max_dur l i cutoff = some (ms, c) →
      (∀ p ∈ l.take ms.length, ∃ d, p.dts = some d ∧
        keep_time time_base base_dts max_dur d = true) ∧
      (∀ hp : ms.length < l.length, ∃ d,
        (l.get ⟨ms.length, hp⟩).dts = some d ∧
        keep_time time_base base_dts max_dur d = false) := by
  induction l with
  | nil =>
    intro i cutoff ms c h
    simp only [mux_loop, Option.some.injEq, Prod.mk.injEq] at h
    obtain ⟨hms, hc⟩ := h
    subst hms
    constructor
    · intro p hp; simp at hp
    · intro hp; simp at hp
  | cons pkt rest ih =>
    intro i cutoff ms c h
    cases hd : pkt.dts with
    | none => simp [mux_loop, hd] at h
    | some d =>
      simp only [mux_loop, hd] at h
      by_cases hk : keep_time time_base base_dts max_dur d = true
      · rw [if_pos hk] at h
        cases hrec : mux_loop time_base base_dts base_pts max_dur rest
            (i + 1) i with
        | none => rw [hrec] at h; simp at h
        | some p =>
          obtain ⟨ms', c'⟩ := p
          rw [hrec] at h
          simp only [Option.some.injEq, Prod.mk.injEq] at h
          obtain ⟨hms, hc⟩ := h
          subst hms
          obtain ⟨hih1, hih2⟩ := ih (i + 1) i ms' c' hrec
          constructor
          · intro q hq
            rw [List.length_cons, List.take_succ_cons] at hq
            rcases List.mem_cons.mp hq with hq | hq
            · exact ⟨d, hq ▸ hd, hk⟩
            · exact hih1 q hq
          · intro hp
            have hp' : ms'.length < rest.length := by simpa using hp
            simpa using hih2 hp'
      · rw [if_neg hk] at h
        simp only [Option.some.injEq, Prod.mk.injEq] at h
        obtain ⟨hms, hc⟩ := h
        subst hms
        constructor
        · intro p hp; simp at hp
        · intro hp
          refine ⟨d, ?_, ?_⟩
          · simpa using hd
          · simpa using hk

/-- The cutoff returned by the loop: unchanged when nothing was muxed,
and otherwise the enumeration index of the last muxed packet. -/
lemma mux_loop_cutoff (time_base : ℚ) (base_dts base_pts : Int)
    (max_dur : Option ℚ) (l : List Packet) :
    ∀ (i cutoff : Nat) (ms : List MuxedPkt) (c : Nat),
      mux_loop time_base base_dts base_pts max_dur l i cutoff = some (ms, c) →
      (ms = [] → c = cutoff) ∧ (ms ≠ [] → c + 1 = i + ms.length) := by
  induction l with
  | nil =>
    intro i cutoff ms c h
    simp only [mux_loop, Option.some.injEq, Prod.mk.injEq] at h
    obtain ⟨hms, hc⟩ := h
    subst hms
    subst hc
    simp
  | cons pkt rest ih =>
    intro i cutoff ms c h
    cases hd : pkt.dts with
    | none => simp [mux_loop, hd] at h
    | some d =>
      simp only [mux_loop, hd] at h
      by_cases hk : keep_time time_base base_dts max_dur d = true
      · rw [if_pos hk] at h
        cases hrec : mux_loop time_base base_dts base_pts max_dur rest
            (i + 1) i with
        | none => rw [hrec] at h; simp at h
        | some p =>
          obtain ⟨ms', c'⟩ := p
          rw [hrec] at h
          simp only [Option.some.injEq, Prod.mk.injEq] at h
          obtain ⟨hms, hc⟩ := h
          subst hms
          subst hc
          obtain ⟨hih1, hih2⟩ := ih (i + 1) i ms' c' hrec
          refine ⟨fun he => by simp at he, fun _ => ?_⟩
          rw [List.length_cons]
          by_cases hms' : ms' = []
          · have := hih1 hms'
            subst hms'
            simp [this]
          · have := hih2 hms'
            omega
      · rw [if_neg hk] at h
        simp only [Option.some.injEq, Prod.mk.injEq] at h
        obtain ⟨hms, hc⟩ := h
        subst hms
        subst hc
        exact ⟨fun _ => rfl, fun hne => absurd rfl hne⟩

/-- When the head packet passes the guard, the loop muxes at least that
packet. -/
lemma mux_loop_cons_ne_nil (time_base : ℚ) (base_dts base_pts : Int)
    (max_dur : Option ℚ) (pkt : Packet) (rest : List Packet)
    (i cutoff : Nat) (ms : List MuxedPkt) (c : Nat) (d : Int)
    (hd : pkt.dts = some d)
    (hk : keep_time time_base base_dts max_dur d = true)
    (h : mux_loop time_base base_dts base_pts max_dur (pkt :: rest) i cutoff
      = some (ms, c)) : ms ≠ [] := by
  simp only [mux_loop, hd] at h
  rw [if_pos hk] at h
  cases hrec : mux_loop time_base base_dts base_pts max_dur rest (i + 1) i with
  | none => rw [hrec] at h; simp at h
  | some p =>
    obtain ⟨ms', c'⟩ := p
    rw [hrec] at h
    simp only [Option.some.injEq, Prod.mk.injEq] at h
    obtain ⟨hms, hc⟩ := h
    subst hms
    simp

/-! Claim theorems. -/

/-- C3: for every sealed chunk produced by `create_package` from a
non-empty packet buffer, each retained packet is rebased by subtracting
the first packet's original dts/pts, so the first retained packet of the
new container has rebased dts = 0 and pts = 0. -/
theorem claim_c3_rebase_zero (p0 : Packet) (rest : List Packet)
    (time_base : ℚ) (max_dur : Option ℚ) (ms : List MuxedPkt) (cutoff : Nat)
    (h : create_package (p0 :: rest) time_base max_dur = some (ms, cutoff))
    (hne : ms ≠ []) :
    ms = ((p0 :: rest).take ms.length).map
      (rebase (p0.dts.getD 0) p0.pts) ∧
    ms.head hne = ⟨0, 0⟩ := by
  cases hbd : p0.dts with
  | none => simp [create_package, hbd] at h
  | some bd =>
    simp only [create_package, hbd] at h
    have hpre := mux_loop_prefix time_base bd p0.pts max_dur (p0 :: rest)
      0 0 ms cutoff h
    constructor
    · simpa [hbd] using hpre
    · cases ms with
      | nil => exact absurd rfl hne
      | cons m ms2 =>
        simp only [List.length_cons, List.take_succ_cons, List.map_cons,
          List.cons.injEq] at hpre
        simp only [List.head_cons]
        rw [hpre.1]
        simp [rebase, hbd]

/-- Witness for C3 at a concrete one-packet buffer with original
dts = 7, pts = 3 and an unbounded duration cap. -/
theorem claim_c3_witness :
    ([(⟨0, 0⟩ : MuxedPkt)] =
      (([⟨some 7, 3⟩] : List Packet).take
          ([(⟨0, 0⟩ : MuxedPkt)].length)).map
        (rebase ((⟨some 7, 3⟩ : Packet).dts.getD 0)
          (⟨some 7, 3⟩ : Packet).pts)) ∧
    [(⟨0, 0⟩ : MuxedPkt)].head (by simp) = ⟨0, 0⟩ :=
  claim_c3_rebase_zero ⟨some 7, 3⟩ [] 1 none [⟨0, 0⟩] 0 (by decide) (by simp)

/-- C4: the duration threshold, in fixed mode (`total_duration = 0`,
`split_duration = 30` minutes, tail 600 s), is 1800 + 600 = 2400 s; in
balanced mode with `total_duration = 5400` it is `ceil(5400/1800) = 3`
parts of 1800 s and threshold 1830 s. -/
theorem claim_c4_thresholds :
    dual_mode_split 0 30 = some (1800, 2400, false) ∧
    dual_mode_split 5400 30 = some (1800, 1830, true) ∧
    (⌈(5400 : ℚ) / 1800⌉ : Int) = 3 := by
  refine ⟨?_, ?_, ?_⟩ <;> norm_num [dual_mode_split, BUFFER_TAIL]

/-- Counterexample to C5 as stated: with buffered dts `[0, 5, 0]`
(time base 1) and duration cap 1, only the first packet is muxed
(`cutoff = 0`), yet two of the buffered packets have relative time
strictly below the cap — "exactly the buffered packets whose relative
time is strictly less than the duration cap are muxed" fails when the
buffered dts sequence is not monotone, because the mux loop breaks at the
first packet at or above the cap. -/
theorem claim_c5_counterexample :
    create_package [⟨some 0, 0⟩, ⟨some 5, 0⟩, ⟨some 0, 0⟩] 1 (some 1)
      = some ([⟨0, 0⟩], 0) ∧
    (([⟨some 0, 0⟩, ⟨some 5, 0⟩, ⟨some 0, 0⟩] : List Packet).countP
      (fun p => keep_time 1 0 (some 1) (p.dts.getD 0))) = 2 ∧
    ([(⟨0, 0⟩ : MuxedPkt)].length ≠ 2) := by
  refine ⟨?_, ?_, by simp⟩
  · norm_num [create_package, mux_loop, keep_time, rebase]
  · norm_num [List.countP_cons, List.countP_nil, keep_time]

/-- C5 (amended): when a chunk is sealed with a positive duration cap,
the muxed packets are exactly the longest prefix of the buffer whose
packets each have relative time strictly below the cap; the cutoff is the
index of the last packet included, the remaining buffer is exactly the
suffix after the cutoff, and together they partition the buffer — no
packet at the boundary is lost or duplicated and order is preserved. -/
theorem claim_c5_prefix_partition (p0 : Packet) (rest : List Packet)
    (time_base cap : ℚ) (ms : List MuxedPkt) (cutoff : Nat)
    (h : create_package (p0 :: rest) time_base (some cap) = some (ms, cutoff))
    (hcap : 0 < cap) :
    ms ≠ [] ∧
    cutoff + 1 = ms.length ∧
    ms = ((p0 :: rest).take (cutoff + 1)).map
      (rebase (p0.dts.getD 0) p0.pts) ∧
    ((p0 :: rest).take (cutoff + 1)) ++ ((p0 :: rest).drop (cutoff + 1))
      = p0 :: rest ∧
    (∀ p ∈ (p0 :: rest).take (cutoff + 1), ∃ d, p.dts = some d ∧
      keep_time time_base (p0.dts.getD 0) (some cap) d = true) ∧
    (∀ hp : cutoff + 1 < (p0 :: rest).length, ∃ d,
      ((p0 :: rest).get ⟨cutoff + 1, hp⟩).dts = some d ∧
      keep_time time_base (p0.dts.getD 0) (some cap) d = false) := by
  cases hbd : p0.dts with
  | none => simp [create_package, hbd] at h
  | some bd =>
    simp only [create_package, hbd] at h
    have hk : keep_time time_base bd (some cap) bd = true := by
      simp [keep_time]
      exact hcap
    have hne := mux_loop_cons_ne_nil time_base bd p0.pts (some cap) p0 rest
      0 0 ms cutoff bd hbd hk h
    have hcut := (mux_loop_cutoff time_base bd p0.pts (some cap) (p0 :: rest)
      0 0 ms cutoff h).2 hne
    rw [Nat.zero_add] at hcut
    have hpre := mux_loop_prefix time_base bd p0.pts (some cap) (p0 :: rest)
      0 0 ms cutoff h
    have hkeeps := mux_loop_keeps time_base bd p0.pts (some cap) (p0 :: rest)
      0 0 ms cutoff h
    refine ⟨hne, hcut, ?_, List.take_append_drop _ _, ?_, ?_⟩
    · rw [hcut]
      simpa [hbd] using hpre
    · intro p hp
      rw [hcut] at hp
      simpa [hbd] using hkeeps.1 p hp
    · intro hp
      have hp2 : ms.length < (p0 :: rest).length := hcut ▸ hp
      obtain ⟨d, hd1, hd2⟩ := hkeeps.2 hp2
      have hfin : (⟨cutoff + 1, hp⟩ : Fin (p0 :: rest).length)
          = ⟨ms.length, hp2⟩ := by
        apply Fin.ext
        simpa using hcut
      rw [hfin]
      exact ⟨d, hd1, by simpa using hd2⟩

/-- Witness for the amended C5 at a concrete three-packet buffer with
dts `[0, 10, 20]` (time base 1) and cap 15: the first two packets are
muxed, the cutoff is 1 and the third packet seeds the next chunk. -/
theorem claim_c5_witness :
    ([(⟨0, 0⟩ : MuxedPkt), ⟨10, 10⟩] ≠ []) ∧
    (1 + 1 = ([(⟨0, 0⟩ : MuxedPkt), ⟨10, 10⟩]).length) ∧
    ([(⟨0, 0⟩ : MuxedPkt), ⟨10, 10⟩] =
      (((⟨some 0, 5⟩ : Packet) :: [⟨some 10, 15⟩, ⟨some 20, 25⟩]).take
          (1 + 1)).map
        (rebase ((⟨some 0, 5⟩ : Packet).dts.getD 0)
          (⟨some 0, 5⟩ : Packet).pts)) ∧
    ((((⟨some 0, 5⟩ : Packet) :: [⟨some 10, 15⟩, ⟨some 20, 25⟩]).take (1 + 1))
        ++ (((⟨some 0, 5⟩ : Packet) :: [⟨some 10, 15⟩, ⟨some 20, 25⟩]).drop
          (1 + 1))
      = (⟨some 0, 5⟩ : Packet) :: [⟨some 10, 15⟩, ⟨some 20, 25⟩]) ∧
    (∀ p ∈ ((⟨some 0, 5⟩ : Packet) :: [⟨some 10, 15⟩, ⟨some 20, 25⟩]).take
        (1 + 1), ∃ d, p.dts = some d ∧
      keep_time 1 ((⟨some 0, 5⟩ : Packet).dts.getD 0) (some 15) d = true) ∧
    (∀ hp : 1 + 1 <
        ((⟨some 0, 5⟩ : Packet) :: [⟨some 10, 15⟩, ⟨some 20, 25⟩]).length,
      ∃ d, (((⟨some 0, 5⟩ : Packet) ::
          [⟨some 10, 15⟩, ⟨some 20, 25⟩]).get ⟨1 + 1, hp⟩).dts = some d ∧
        keep_time 1 ((⟨some 0, 5⟩ : Packet).dts.getD 0) (some 15) d
          = false) :=
  claim_c5_prefix_partition ⟨some 0, 5⟩ [⟨some 10, 15⟩, ⟨some 20, 25⟩]
    1 15 [⟨0, 0⟩, ⟨10, 10⟩] 1
    (by norm_num [create_package, mux_loop, keep_time, rebase])
    (by norm_num)

/-- The segmentation loop never puts the sentinel on the conveyor: only
the teardown path does. -/
lemma packager_loop_no_sentinel (time_base threshold target_split : ℚ)
    (mime : String) (csz : List MuxedPkt → ℚ) (stream : List Packet) :
    ∀ (buffer : List Packet) (box_id : Nat) (demux_error : Bool),
      QueueItem.sentinel ∉ packager_loop time_base threshold target_split
        mime csz stream buffer box_id demux_error := by
  induction stream with
  | nil =>
    intro buffer box_id demux_error
    cases demux_error with
    | true => simp [packager_loop]
    | false =>
      cases buffer with
      | nil => simp [packager_loop]
      | cons b bs =>
        cases hcp : create_package (b :: bs) time_base none with
        | none => simp [packager_loop, hcp]
        | some p =>
          obtain ⟨ms, c⟩ := p
          simp [packager_loop, hcp]
  | cons packet rest ih =>
    intro buffer box_id demux_error
    cases hd : packet.dts with
    | none => simpa [packager_loop, hd] using ih buffer box_id demux_error
    | some d =>
      cases hd0 : (buffer.headD packet).dts with
      | none =>
        simp only [packager_loop, hd, hd0]
        simp
      | some d0 =>
        simp only [packager_loop, hd, hd0]
        by_cases hth : threshold ≤ ((d - d0 : Int) : ℚ) * time_base
        · rw [if_pos hth]
          cases hcp : create_package (buffer ++ [packet]) time_base
              (some target_split) with
          | none => simp
          | some p =>
            obtain ⟨ms, c⟩ := p
            intro hmem
            simp only [List.mem_cons] at hmem
            rcases hmem with hmem | hmem
            · simp at hmem
            · exact ih _ _ _ hmem
        · rw [if_neg hth]
          exact ih _ _ _

/-- The chunk indices put on the conveyor by the segmentation loop form
the contiguous range starting at the initial `box_id`. -/
lemma packager_loop_indices (time_base threshold target_split : ℚ)
    (mime : String) (csz : List MuxedPkt → ℚ) (stream : List Packet) :
    ∀ (buffer : List Packet) (box_id : Nat) (demux_error : Bool),
      ∃ n, (packager_loop time_base threshold target_split mime csz stream
        buffer box_id demux_error).filterMap cargo_index?
        = List.range' box_id n := by
  induction stream with
  | nil =>
    intro buffer box_id demux_error
    cases demux_error with
    | true => exact ⟨0, by simp [packager_loop]⟩
    | false =>
      cases buffer with
      | nil => exact ⟨0, by simp [packager_loop]⟩
      | cons b bs =>
        cases hcp : create_package (b :: bs) time_base none with
        | none => exact ⟨0, by simp [packager_loop, hcp]⟩
        | some p =>
          obtain ⟨ms, c⟩ := p
          exact ⟨1, by simp [packager_loop, hcp, cargo_index?, List.range']⟩
  | cons packet rest ih =>
    intro buffer box_id demux_error
    cases hd : packet.dts with
    | none =>
      obtain ⟨n, hn⟩ := ih buffer box_id demux_error
      exact ⟨n, by simpa [packager_loop, hd] using hn⟩
    | some d =>
      cases hd0 : (buffer.headD packet).dts with
      | none =>
        refine ⟨0, ?_⟩
        simp only [packager_loop, hd, hd0]
        simp
      | some d0 =>
        by_cases hth : threshold ≤ ((d - d0 : Int) : ℚ) * time_base
        · cases hcp : create_package (buffer ++ [packet]) time_base
              (some target_split) with
          | none =>
            refine ⟨0, ?_⟩
            simp only [packager_loop, hd, hd0]
            rw [if_pos hth, hcp]
            simp
          | some p =>
            obtain ⟨ms, c⟩ := p
            obtain ⟨n, hn⟩ := ih ((buffer ++ [packet]).drop (c + 1))
              (box_id + 1) demux_error
            refine ⟨n + 1, ?_⟩
            simp only [packager_loop, hd, hd0]
            rw [if_pos hth, hcp, List.range'_succ]
            simp [cargo_index?, List.filterMap_cons, hn]
        · obtain ⟨n, hn⟩ := ih (buffer ++ [packet]) box_id demux_error
          refine ⟨n, ?_⟩
          simp only [packager_loop, hd, hd0]
          rw [if_neg hth]
          exact hn

/-- The threshold computation succeeds unless `total_duration > 0` and
`split_duration = 0` (the `ZeroDivisionError` input). -/
lemma dual_mode_split_some (total_duration : ℚ) (split_duration : Int)
    (h : ¬(0 < total_duration ∧ split_duration = 0)) :
    ∃ r, dual_mode_split total_duration split_duration = some r := by
  by_cases ht : 0 < total_duration
  · have hsd : split_duration ≠ 0 := fun hs => h ⟨ht, hs⟩
    have hbase : ¬(split_duration * 60 = 0) := by
      simpa [Int.mul_eq_zero] using hsd
    simp only [dual_mode_split, if_pos ht, if_neg hbase]
    by_cases hnp :
        0 < (⌈total_duration / ((split_duration * 60 : Int) : ℚ)⌉ : Int)
    · exact ⟨_, by rw [if_pos hnp]⟩
    · exact ⟨_, by rw [if_neg hnp]⟩
  · refine ⟨(((split_duration * 60 : Int) : ℚ),
      ((split_duration * 60 : Int) : ℚ) + (BUFFER_TAIL : ℚ), false), ?_⟩
    simp [dual_mode_split, ht]

/-- Counterexample to C1 as stated: the claim promises the terminal
sentinel "on every exit", but with `total_duration = 5400` and
`split_duration = 0` the threshold computation raises `ZeroDivisionError`
before `run_packager`'s `try`/`finally`, so the conveyor never receives a
sentinel at all. -/
theorem claim_c1_counterexample :
    ¬ ((run_packager 5400 0 1 "opus" (fun _ => 0) true [] false).conveyor.count
        QueueItem.sentinel = 1) := by
  have hsplit : dual_mode_split 5400 0 = none := by
    norm_num [dual_mode_split]
  simp [run_packager, hsplit]

/-- C1 (amended): provided the pre-`try` threshold computation does not
raise (that is, except when `total_duration > 0` and `split_duration = 0`),
every run of `run_packager` — ending normally or by exception — puts
exactly N `Cargo` values followed by exactly one terminal sentinel on the
conveyor: the sentinel count is one and it is the final item, with N ≥ 0
the number of chunks sealed (N = 0 when the stream had no packets). -/
theorem claim_c1_sentinel (total_duration : ℚ) (split_duration : Int)
    (time_base : ℚ) (codec : String) (container_size : List MuxedPkt → ℚ)
    (startup_ok : Bool) (stream : List Packet) (demux_error : Bool)
    (h : ¬(0 < total_duration ∧ split_duration = 0)) :
    ((run_packager total_duration split_duration time_base codec
        container_size startup_ok stream demux_error).conveyor.count
      QueueItem.sentinel = 1) ∧
    ((run_packager total_duration split_duration time_base codec
        container_size startup_ok stream demux_error).conveyor.getLast?
      = some QueueItem.sentinel) ∧
    ((run_packager total_duration split_duration time_base codec
        container_size startup_ok stream demux_error).raised = false) := by
  obtain ⟨⟨target_split, threshold, balanced⟩, hr⟩ :=
    dual_mode_split_some total_duration split_duration h
  simp only [run_packager, hr]
  cases startup_ok with
  | false => simp
  | true =>
    have hns := packager_loop_no_sentinel time_base threshold target_split
      ("audio/" ++ codec_fmt codec) container_size stream [] 0 demux_error
    refine ⟨?_, ?_, rfl⟩
    · simp only [if_true]
      rw [List.count_append, List.count_eq_zero.mpr hns]
      simp
    · simp only [if_true]
      exact List.getLast?_concat _

/-- Witness for the amended C1 on a one-packet stream in fixed mode: one
sealed chunk, then the sentinel. -/
theorem claim_c1_witness :
    ((run_packager 0 30 1 "opus" (fun _ => 0) true [⟨some 0, 0⟩]
        false).conveyor.count QueueItem.sentinel = 1) ∧
    ((run_packager 0 30 1 "opus" (fun _ => 0) true [⟨some 0, 0⟩]
        false).conveyor.getLast? = some QueueItem.sentinel) ∧
    ((run_packager 0 30 1 "opus" (fun _ => 0) true [⟨some 0, 0⟩]
        false).raised = false) :=
  claim_c1_sentinel 0 30 1 "opus" (fun _ => 0) true [⟨some 0, 0⟩] false
    (by norm_num)

/-- C2: for every run of `run_packager`, the Cargo indices put on the
conveyor, in creation order, are exactly `0, 1, …, N-1`: `box_id` starts
at 0 and increases by exactly one per sealed chunk, with no gaps or
repeats. -/
theorem claim_c2_indices (total_duration : ℚ) (split_duration : Int)
    (time_base : ℚ) (codec : String) (container_size : List MuxedPkt → ℚ)
    (startup_ok : Bool) (stream : List Packet) (demux_error : Bool) :
    ((run_packager total_duration split_duration time_base codec
        container_size startup_ok stream demux_error).conveyor.filterMap
      cargo_index?)
    = List.range (((run_packager total_duration split_duration time_base
        codec container_size startup_ok stream demux_error).conveyor.filterMap
      cargo_index?).length) := by
  cases hr : dual_mode_split total_duration split_duration with
  | none => simp [run_packager, hr]
  | some r =>
    obtain ⟨target_split, threshold, balanced⟩ := r
    simp only [run_packager, hr]
    cases startup_ok with
    | false => simp [cargo_index?]
    | true =>
      obtain ⟨n, hn⟩ := packager_loop_indices time_base threshold target_split
        ("audio/" ++ codec_fmt codec) container_size stream [] 0 demux_error
      simp only [if_true, List.filterMap_append, hn]
      rw [List.range_eq_range']
      simp [cargo_index?, List.length_range']

/-- C6: in `data` mode the dispatcher emits no line for an event of kind
`status` — every line it enqueues is a single JSON object whose kind is
`asset`, `error` or `keepalive`, a `status` dispatch emits nothing at
all, and the extraction-tool log monitor (whose pipe is still drained)
emits nothing whatsoever. -/
theorem claim_c6_data_mode (event_type : String)
    (payload : Option (List (String × JVal))) (text : Option String)
    (ls : List (ℚ × String)) :
    ((log_dispatch "data" event_type payload text).all fun l =>
      is_json_line l &&
        (line_kind l == "asset" || line_kind l == "error" ||
          line_kind l == "keepalive")) = true ∧
    log_dispatch "data" "status" payload text = [] ∧
    miner_log_monitor "data" ls = [] := by
  refine ⟨?_, ?_, ?_⟩
  · simp only [log_dispatch]
    by_cases h1 : (event_type == "asset" || event_type == "error" ||
        event_type == "keepalive") = true
    · simp [h1, is_json_line, line_kind]
    · simp [h1]
  · simp [log_dispatch]
  · simp [miner_log_monitor]

/-- Event count after a cons. -/
lemma event_count_cons (k : String) (e : Event) (es : List Event) :
    event_count k (e :: es)
      = (if e.kind == k then 1 else 0) + event_count k es := by
  by_cases h : (e.kind == k) = true
  · simp [event_count, List.filter_cons, h, Nat.add_comm]
  · simp [event_count, List.filter_cons, h]

/-- Event count distributes over append. -/
lemma event_count_append (k : String) (es1 es2 : List Event) :
    event_count k (es1 ++ es2) = event_count k es1 + event_count k es2 := by
  simp [event_count, List.filter_append]

/-- Unfolding of the failure count over one more position. -/
lemma failures_in_succ (u : Nat → Transport) (i n : Nat) :
    failures_in u i (n + 1)
      = (if is_failure (u i) then 1 else 0) + failures_in u (i + 1) n := by
  by_cases h : is_failure (u i) = true
  · simp [failures_in, List.range'_succ, List.filter_cons, h, Nat.add_comm]
  · simp [failures_in, List.range'_succ, List.filter_cons, h]

/-- The failure count never exceeds the number of positions counted. -/
lemma failures_in_le (u : Nat → Transport) (i n : Nat) :
    failures_in u i n ≤ n :=
  le_trans (List.length_filter_le _ _) (le_of_eq (List.length_range' _ _ _))

/-- Per-upload behaviour of `ship_cargo`: the buffer is closed on every
path, and exactly one error event (and no asset event) is dispatched on
failure, exactly one asset event (and no error event) on success. -/
lemma ship_cargo_spec (provider : String) (cargo : Cargo) (t : Transport) :
    (ship_cargo provider cargo t).2 = true ∧
    event_count "error" (ship_cargo provider cargo t).1
      = (if is_failure t then 1 else 0) ∧
    event_count "asset" (ship_cargo provider cargo t).1
      = (if is_failure t then 0 else 1) := by
  cases t with
  | exc msg => simp [ship_cargo, is_failure, event_count]
  | resp r =>
    by_cases hs : 400 ≤ r.status
    · simp [ship_cargo, is_failure, event_count, hs]
    · simp [ship_cargo, is_failure, event_count, hs]

/-- Error and asset event counts over the whole shipper loop: one per
failed upload and one per successful upload, independent of position and
of other uploads. -/
lemma shipper_loop_counts (provider : String) (u : Nat → Transport)
    (cargos : List Cargo) :
    ∀ i, event_count "error" (shipper_loop provider u cargos i)
        = failures_in u i cargos.length ∧
      event_count "asset" (shipper_loop provider u cargos i)
        = cargos.length - failures_in u i cargos.length := by
  induction cargos with
  | nil => intro i; simp [shipper_loop, event_count, failures_in]
  | cons c cs ih =>
    intro i
    obtain ⟨ih1, ih2⟩ := ih (i + 1)
    obtain ⟨-, hc1, hc2⟩ := ship_cargo_spec provider c (u i)
    have hle := failures_in_le u (i + 1) cs.length
    rw [List.length_cons, failures_in_succ]
    constructor
    · rw [shipper_loop, event_count_cons, event_count_append, hc1, ih1]
      simp
    · rw [shipper_loop, event_count_cons, event_count_append, hc2, ih2]
      by_cases hf : is_failure (u i) = true
      · simp only [hf, if_true]
        simp
        omega
      · simp only [hf, if_false]
        simp
        omega

/-- C7: for every Cargo uploaded by `ship_cargo`, an HTTP status ≥ 400 or
a transport exception yields exactly one error event for that chunk and
no asset event, a success exactly one asset event; the byte buffer is
closed on every path; and over a whole shipper run the error events are
one per failed upload and the asset events one per successful upload —
a failing chunk aborts neither the job nor any other chunk's upload. -/
theorem claim_c7_upload_isolation (provider : String) (cargo : Cargo)
    (t : Transport) (cargos : List Cargo) (uploads : Nat → Transport) :
    (ship_cargo provider cargo t).2 = true ∧
    event_count "error" (ship_cargo provider cargo t).1
      = (if is_failure t then 1 else 0) ∧
    event_count "asset" (ship_cargo provider cargo t).1
      = (if is_failure t then 0 else 1) ∧
    event_count "error" (run_shipper provider cargos uploads)
      = failures_in uploads 0 cargos.length ∧
    event_count "asset" (run_shipper provider cargos uploads)
      = cargos.length - failures_in uploads 0 cargos.length := by
  obtain ⟨h1, h2, h3⟩ := ship_cargo_spec provider cargo t
  obtain ⟨h4, h5⟩ := shipper_loop_counts provider uploads cargos 0
  refine ⟨h1, h2, h3, ?_, ?_⟩
  · rw [run_shipper, event_count_cons, h4]
    simp
  · rw [run_shipper, event_count_cons, h5]
    simp

/-- Rendered events never contain the closing queue sentinel. -/
lemma done_not_in_render (mode : String) (e : Event) :
    LogItem.done ∉ render_event mode e := by
  simp [render_event]

/-- Nor do concatenations of rendered events. -/
lemma done_not_in_flat (mode : String) (es : List Event) :
    LogItem.done ∉ es.flatMap (render_event mode) := by
  simp [List.mem_flatMap, render_event]

/-- A log stream assembled from four sentinel-free segments and a final
closing item ends with that item and contains it exactly once. -/
lemma log_out_structure (a b c d : List LogItem)
    (ha : LogItem.done ∉ a) (hb : LogItem.done ∉ b)
    (hc : LogItem.done ∉ c) (hd : LogItem.done ∉ d) :
    (a ++ b ++ c ++ d ++ [LogItem.done]).getLast?
      = some LogItem.done ∧
    (a ++ b ++ c ++ d ++ [LogItem.done]).count LogItem.done = 1 := by
  constructor
  · exact List.getLast?_concat _
  · simp [List.count_append, List.count_eq_zero.mpr ha,
      List.count_eq_zero.mpr hb, List.count_eq_zero.mpr hc,
      List.count_eq_zero.mpr hd]

/-- Counterexample to C8 as stated: with `total_duration = 5400` and
`split_duration = 0` the Segmenter raises before its protected region,
the exception re-raises through `await loop.run_in_executor` inside
`run_fly_process` (which has no `try`/`finally` of its own), and the job
never reaches Terminal: the cookie file written at Init survives and the
closing `None` is never put on the event queue. -/
theorem claim_c8_counterexample :
    ((run_fly_process "c" true "data" "assemblyai" 5400 0 1 "opus"
        (fun _ => 0) true [] false
        (fun _ => Transport.resp ⟨200, "", []⟩)).raised = true) ∧
    ((run_fly_process "c" true "data" "assemblyai" 5400 0 1 "opus"
        (fun _ => 0) true [] false
        (fun _ => Transport.resp ⟨200, "", []⟩)).cookie_file_exists
      = true) ∧
    ((run_fly_process "c" true "data" "assemblyai" 5400 0 1 "opus"
        (fun _ => 0) true [] false
        (fun _ => Transport.resp ⟨200, "", []⟩)).out.count LogItem.done
      = 0) := by
  have hsplit : dual_mode_split 5400 0 = none := by
    norm_num [dual_mode_split]
  have hraised :
      (run_packager 5400 0 1 "opus" (fun _ => 0) true [] false).raised
        = true := by
    simp [run_packager, hsplit]
  refine ⟨?_, ?_, ?_⟩ <;>
    simp [run_fly_process, run_packager, hsplit, render_event, log_dispatch]

/-- C8 (amended): provided the Segmenter's pre-`try` threshold
computation does not raise (that is, except when `total_duration > 0` and
`split_duration = 0`), every job run by `run_fly_process` reaches
Terminal on every path, including early Segmenter failure: no exception
escapes, the per-job temporary credentials file is deleted, and the
closing `None` sentinel is placed on the event queue exactly once, as its
final item. -/
theorem claim_c8_terminal (cookies : String) (write_ok : Bool)
    (mode provider : String) (total_duration : ℚ) (split_duration : Int)
    (time_base : ℚ) (codec : String) (container_size : List MuxedPkt → ℚ)
    (startup_ok : Bool) (stream : List Packet) (demux_error : Bool)
    (uploads : Nat → Transport)
    (h : ¬(0 < total_duration ∧ split_duration = 0)) :
    ((run_fly_process cookies write_ok mode provider total_duration
        split_duration time_base codec container_size startup_ok stream
        demux_error uploads).raised = false) ∧
    ((run_fly_process cookies write_ok mode provider total_duration
        split_duration time_base codec container_size startup_ok stream
        demux_error uploads).cookie_file_exists = false) ∧
    ((run_fly_process cookies write_ok mode provider total_duration
        split_duration time_base codec container_size startup_ok stream
        demux_error uploads).out.getLast? = some LogItem.done) ∧
    ((run_fly_process cookies write_ok mode provider total_duration
        split_duration time_base codec container_size startup_ok stream
        demux_error uploads).out.count LogItem.done = 1) := by
  obtain ⟨⟨target_split, threshold, balanced⟩, hr⟩ :=
    dual_mode_split_some total_duration split_duration h
  have hraised : (run_packager total_duration split_duration time_base codec
      container_size startup_ok stream demux_error).raised = false := by
    simp only [run_packager, hr]
    cases startup_ok <;> rfl
  simp only [run_fly_process, hraised, Bool.false_eq_true, if_false]
  obtain ⟨hlast, hcount⟩ := log_out_structure _ _ _ _
    (done_not_in_render mode ⟨"status", none,
      some "--- 🏭 LOGISTICS SYSTEM STARTED ---"⟩)
    (done_not_in_flat mode (run_packager total_duration split_duration
      time_base codec container_size startup_ok stream demux_error).events)
    (done_not_in_flat mode (run_shipper provider
      ((run_packager total_duration split_duration time_base codec
        container_size startup_ok stream demux_error).conveyor.filterMap
        (fun q => match q with
          | QueueItem.cargo c => some c
          | QueueItem.sentinel => none)) uploads))
    (done_not_in_render mode ⟨"status", none,
      some "--- ✅ ALL SHIPMENTS COMPLETE ---"⟩)
  exact ⟨by simp, by simp, hlast, hcount⟩

/-- Witness for the amended C8 at a concrete Segmenter-failure scenario
(`startup_ok = false`, a written cookie file): the job still terminates,
the cookie file is gone and the stream is closed by the sentinel. -/
theorem claim_c8_witness :
    ((run_fly_process "c" true "debug" "assemblyai" 0 30 1 "opus"
        (fun _ => 0) false [] false
        (fun _ => Transport.resp ⟨200, "", []⟩)).raised = false) ∧
    ((run_fly_process "c" true "debug" "assemblyai" 0 30 1 "opus"
        (fun _ => 0) false [] false
        (fun _ => Transport.resp ⟨200, "", []⟩)).cookie_file_exists
      = false) ∧
    ((run_fly_process "c" true "debug" "assemblyai" 0 30 1 "opus"
        (fun _ => 0) false [] false
        (fun _ => Transport.resp ⟨200, "", []⟩)).out.getLast?
      = some LogItem.done) ∧
    ((run_fly_process "c" true "debug" "assemblyai" 0 30 1 "opus"
        (fun _ => 0) false [] false
        (fun _ => Transport.resp ⟨200, "", []⟩)).out.count LogItem.done
      = 1) :=
  claim_c8_terminal "c" true "debug" "assemblyai" 0 30 1 "opus"
    (fun _ => 0) false [] false (fun _ => Transport.resp ⟨200, "", []⟩)
    (by norm_num)

/-- C9: for every request accepted by `POST /api/fly`, no
`total_duration` is supplied, so the pipeline keeps the defaults
`total_duration = 0.0` and `split_duration = 30`; the balanced-split
branch is never taken and the threshold is the fixed
`split_duration*60 + BUFFER_TAIL = 1800 + 600 = 2400` seconds. -/
theorem claim_c9_endpoint_fixed (r : FlyRequest) :
    (fly_endpoint_args r).total_duration = 0 ∧
    (fly_endpoint_args r).split_duration = 30 ∧
    dual_mode_split (fly_endpoint_args r).total_duration
      (fly_endpoint_args r).split_duration = some (1800, 2400, false) := by
  refine ⟨rfl, rfl, ?_⟩
  norm_num [fly_endpoint_args, dual_mode_split, BUFFER_TAIL]

/-- C10: for every event dispatched with a non-empty text message whose
payload does not already contain the key `"message"`, every JSON line
`log_dispatch` emits carries that text under `"message"` in its payload. -/
theorem claim_c10_message_field (mode event_type : String)
    (payload : List (String × JVal)) (t : String)
    (ht : t ≠ "") (hm : plookup payload "message" = none) :
    ∀ l ∈ log_dispatch mode event_type (some payload) (some t),
      is_json_line l = true →
      plookup (json_payload l) "message" = some (JVal.s t) := by
  intro l hl hj
  have htt : (t != "") = true := by simpa using ht
  have hfind : plookup (payload ++ [("message", JVal.s t)]) "message"
      = some (JVal.s t) := by
    have hfind0 : payload.find? (fun kv => kv.1 == "message") = none := by
      simpa [plookup] using hm
    simp [plookup, List.find?_append, hfind0]
  simp only [log_dispatch, Option.getD_some, htt, hm, Option.isNone_none,
    Bool.and_self, if_true] at hl
  by_cases hmode : (mode == "data") = true
  · rw [if_pos hmode] at hl
    by_cases hterm : (event_type == "asset" || event_type == "error" ||
        event_type == "keepalive") = true
    · rw [if_pos hterm] at hl
      simp only [List.mem_singleton] at hl
      subst hl
      simpa [json_payload] using hfind
    · rw [if_neg hterm] at hl
      simp at hl
  · rw [if_neg hmode] at hl
    rcases List.mem_append.mp hl with hl | hl
    · simp only [List.mem_singleton] at hl
      subst hl
      simp [is_json_line] at hj
    · by_cases hpay : (event_type == "asset" || event_type == "error" ||
          event_type == "keepalive" || payload != []) = true
      · rw [if_pos hpay] at hl
        simp only [List.mem_singleton] at hl
        subst hl
        simpa [json_payload] using hfind
      · rw [if_neg hpay] at hl
        simp at hl

/-- Witness for C10 at the data-mode asset event dispatched by
`ship_cargo`: its JSON payload carries `"message"` in addition to
`index`, `asset`, `provider` and `size_mb`. -/
theorem claim_c10_witness :
    plookup
      (json_payload (Line.json "asset"
        ([("index", JVal.i 0), ("asset", JVal.s "u"),
          ("provider", JVal.s "assemblyai"), ("size_mb", JVal.q 2)] ++
          [("message", JVal.s "[SHIPPER] ✅ Delivered")])))
      "message" = some (JVal.s "[SHIPPER] ✅ Delivered") :=
  claim_c10_message_field "data" "asset"
    [("index", JVal.i 0), ("asset", JVal.s "u"),
      ("provider", JVal.s "assemblyai"), ("size_mb", JVal.q 2)]
    "[SHIPPER] ✅ Delivered" (by decide) (by decide)
    (Line.json "asset"
      ([("index", JVal.i 0), ("asset", JVal.s "u"),
        ("provider", JVal.s "assemblyai"), ("size_mb", JVal.q 2)] ++
        [("message", JVal.s "[SHIPPER] ✅ Delivered")]))
    (by simp [log_dispatch, plookup]) (by decide)

end PythonFastx
